import Mathlib

/-
Verification development for the antigravity2api-nodejs gateway.

Shallow embedding of the parts of the source that the checked claims
concern: the quota-UI grouping and summarization (public/js/quota.js),
the upstream error classifier and model-list fetch (src/api, in
src/server/index.js of the extract), the token pool (TokenManager),
the 404 whitelist middleware, and the memory cleaner
(src/utils/memoryManager.js).

Machine integers do not matter for these claims (all counters are small
naturals); JS numbers used for quota fractions are modelled as rationals.
-/

/- ===================== String helpers ===================== -/

/-- Decides whether the character list `needle` occurs contiguously inside
`hay`. Mirrors the semantics of JS `String.prototype.includes` (on the
code points): the empty needle is always found. -/
def charsInclude (hay needle : List Char) : Bool :=
  match hay with
  | [] => needle.isEmpty
  | _ :: t => needle.isPrefixOf hay || charsInclude t needle

/-- JS `s.includes(pat)` on strings, via the underlying character lists. -/
def jsIncludes (s pat : String) : Bool :=
  charsInclude s.data pat.data

/-- JS `s.toLowerCase()`: lowercases every character. Stated on the
character list so that the kernel can evaluate it (the library
`String.toLower` is defined through `String.mapAux`, which does not
reduce definitionally); it agrees with `String.toLower` extensionally. -/
def jsToLower (s : String) : String :=
  String.mk (s.data.map Char.toLower)

/- ===================== Quota UI grouping (public/js/quota.js, QUOTA_GROUPS / groupModels) ===================== -/

/-- Mirrors `QUOTA_GROUPS` of public/js/quota.js: the ordered list of
(key, matcher) pairs, in the order they appear in the source:
claude, banana, gemini, other. Each matcher is the `match` closure of
the corresponding entry. -/
def QUOTA_GROUPS : List (String × (String → Bool)) :=
  [ ("claude", fun modelId => jsIncludes (jsToLower modelId) "claude"),
    ("banana", fun modelId => jsIncludes (jsToLower modelId) "gemini-3-pro-image"),
    ("gemini", fun modelId =>
      jsIncludes (jsToLower modelId) "gemini" || jsIncludes (jsToLower modelId) "publishers/google/"),
    ("other", fun _ => true) ]

/-- Mirrors the group-key computation of `groupModels`
(public/js/quota.js line 158):
`(QUOTA_GROUPS.find(g => g.match(modelId)) || QUOTA_GROUPS[QUOTA_GROUPS.length - 1]).key`. -/
def groupKeyForModel (modelId : String) : String :=
  match QUOTA_GROUPS.find? (fun g => g.2 modelId) with
  | some g => g.1
  | none => "other"

/-- Modelled from the claim wording for comparison (NOT from the source):
the same matchers, but tested in the order the claim states:
claude, gemini, banana, other. -/
def QUOTA_GROUPS_claimOrder : List (String × (String → Bool)) :=
  [ ("claude", fun modelId => jsIncludes (jsToLower modelId) "claude"),
    ("gemini", fun modelId =>
      jsIncludes (jsToLower modelId) "gemini" || jsIncludes (jsToLower modelId) "publishers/google/"),
    ("banana", fun modelId => jsIncludes (jsToLower modelId) "gemini-3-pro-image"),
    ("other", fun _ => true) ]

/-- Group key under the claim-stated order, for the refinement comparison. -/
def groupKeyForModelClaimOrder (modelId : String) : String :=
  match QUOTA_GROUPS_claimOrder.find? (fun g => g.2 modelId) with
  | some g => g.1
  | none => "other"

/- ===================== Quota UI summarization (public/js/quota.js, summarizeGroup) ===================== -/

/-- Mirrors `clamp01` of public/js/quota.js (the non-finite guard of the JS
source does not arise over the rationals). -/
def clamp01 (value : ℚ) : ℚ :=
  min 1 (max 0 value)

/-- Mirrors `toPercentage` of public/js/quota.js. -/
def toPercentage (fraction01 : ℚ) : ℚ :=
  clamp01 fraction01 * 100

/-- Mirrors the `minRemaining` accumulation of `summarizeGroup`
(public/js/quota.js lines 171-177): start at 1 and take the clamped
minimum of `quota.remaining` over the items of the group. -/
def minRemainingOf (items : List ℚ) : ℚ :=
  items.foldl (fun minRemaining q => if clamp01 q < minRemaining then clamp01 q else minRemaining) 1

/-- Mirrors the `estimatedRequests` computation of `summarizeGroup`
(public/js/quota.js lines 195-197):
`Math.max(0, Math.floor(toPercentage(minRemaining) / 0.6667) - requestCount)`. -/
def estimatedRequestsOf (items : List ℚ) (requestCount : ℕ) : ℤ :=
  max 0 (⌊toPercentage (minRemainingOf items) / (6667 / 10000 : ℚ)⌋ - (requestCount : ℤ))

/-- Mirrors the `estimatedRequests` field of the record returned by
`summarizeGroup`, including the empty-item early return (line 168). -/
def summarizeGroupEstimatedRequests (items : List ℚ) (requestCount : ℕ) : ℤ :=
  if items.isEmpty then 0 else estimatedRequestsOf items requestCount

/- ===================== Upstream error classification (src/api, handleApiError) ===================== -/

/-- Classification of the error raised by `handleApiError`, identified by the
message it builds: the Exceeded-model-maximum-context message, the
no-usage-permission message, or the generic API-request-failed message. -/
inductive ApiErrorKind
  | contextTooLong
  | noPermission
  | apiRequestFailed
  deriving DecidableEq, Repr

/-- Observable outcome of `handleApiError`: whether
`tokenManager.disableCurrentToken` was invoked on the credential in use,
which error was thrown, and the status it carries. -/
structure ApiErrorAction where
  disableCurrent : Bool
  kind : ApiErrorKind
  status : ℕ
  deriving DecidableEq, Repr

/-- Mirrors `handleApiError` (src/api module of the extract, lines
1555-1572). The predicate `isCallerDoesNotHavePermission` lives in the
upstreamError helper outside the extracted sources, so its verdict on the
error body is taken as the boolean input `callerDoesNotHavePermission`. -/
def handleApiError (status : ℕ) (callerDoesNotHavePermission : Bool) : ApiErrorAction :=
  if status = 403 then
    if callerDoesNotHavePermission then
      { disableCurrent := false, kind := .contextTooLong, status := status }
    else
      { disableCurrent := true, kind := .noPermission, status := status }
  else
    { disableCurrent := false, kind := .apiRequestFailed, status := status }

/- ===================== Token pool (TokenManager) ===================== -/

/-- Credential as held in `TokenManager.tokens`. The JS fields
`enable !== false` and `hasQuota !== false` (absent means true) are
modelled as booleans. Fields not consulted by the checked claims
(timestamps, projectId, email, sessionId) are omitted. -/
structure PoolToken where
  refresh_token : String
  access_token : String
  enable : Bool
  hasQuota : Bool
  deriving DecidableEq, Repr

/-- Combined outcome of `_prepareToken` together with `_handleTokenError`:
`ready` (token usable), `skip` (a non-400/403 error was logged), or
`disable` (the token must be disabled). -/
inductive PrepResult
  | ready
  | skip
  | disable
  deriving DecidableEq, Repr

/-- Mirrors the list surgery of `disableToken` (line 808):
`this.tokens = this.tokens.filter(t => t.refresh_token !== token.refresh_token)`. -/
def disableTokenFilter (toks : List PoolToken) (token : PoolToken) : List PoolToken :=
  toks.filter (fun t => t.refresh_token != token.refresh_token)

/-- Mirrors `_checkAllTokensExhaustedForModel` (lines 936-945) combined with
the call-site guard `if (modelId) ...`: false when no model is requested or
the pool is empty, else true iff no token passes `_canUseTokenForModel`. -/
def allTokensExhausted (modelGiven : Bool) (canUse : PoolToken → Bool) (toks : List PoolToken) : Bool :=
  modelGiven && !toks.isEmpty && toks.all (fun t => !canUse t)

/-- Loop body of `_getTokenForDefaultStrategy` (lines 1110-1155), assuming
nothing about `_prepareToken`: its outcome per token is the oracle `prep`.
`canUse` is `_canUseTokenForModel` for the requested model. The fuel is the
remaining number of iterations of `for (let i = 0; i < totalTokens; i++)`.
An out-of-range read `this.tokens[index]` (possible after a mid-loop
disable shrank the array) makes the JS crash with a TypeError inside the
catch handler, so no credential is returned: modelled as `none`. -/
def selectDefaultLoop (modelGiven allEx : Bool) (canUse : PoolToken → Bool)
    (prep : PoolToken → PrepResult) (start total : ℕ) :
    ℕ → ℕ → List PoolToken → Option PoolToken
  | 0, _, _ => none
  | fuel + 1, i, toks =>
    match toks.get? ((start + i) % total) with
    | none => none
    | some token =>
      if modelGiven && !allEx && !canUse token then
        selectDefaultLoop modelGiven allEx canUse prep start total fuel (i + 1) toks
      else
        match prep token with
        | .ready => some token
        | .skip => selectDefaultLoop modelGiven allEx canUse prep start total fuel (i + 1) toks
        | .disable =>
          if (disableTokenFilter toks token).length = 0 then none
          else selectDefaultLoop modelGiven allEx canUse prep start total fuel (i + 1)
            (disableTokenFilter toks token)

/-- Mirrors `_getTokenForDefaultStrategy` (lines 1100-1158) as far as the
returned credential is concerned (cursor bookkeeping only changes which
token the NEXT call starts from and is studied separately for the
request-count cadence). -/
def selectDefault (modelGiven : Bool) (canUse : PoolToken → Bool) (prep : PoolToken → PrepResult)
    (start : ℕ) (toks : List PoolToken) : Option PoolToken :=
  let total := toks.length
  let allEx := allTokensExhausted modelGiven canUse toks
  selectDefaultLoop modelGiven allEx canUse prep start total total 0 toks

/-- Mirrors `_resetAllQuotas` (lines 921-928): every token gets
`hasQuota = true`. -/
def resetAllQuotas (toks : List PoolToken) : List PoolToken :=
  toks.map (fun t => { t with hasQuota := true })

/-- Mirrors `_rebuildAvailableQuotaTokens` (lines 473-486): the indices of
tokens with `enable !== false && hasQuota !== false`. -/
def rebuildAvailableQuotaTokens (toks : List PoolToken) : List ℕ :=
  (List.range toks.length).filter (fun i =>
    match toks.get? i with
    | some t => t.enable && t.hasQuota
    | none => false)

/-- Loop body of `_getTokenForQuotaExhaustedStrategy` (lines 1050-1092).
The available-index list is re-read each iteration (a mid-loop disable
rebuilds it), so it is threaded through the recursion alongside the token
list; `startIndex` and `totalAvailable` stay as captured before the loop.
When the fuel runs out the source resets all quotas and returns
`this.tokens[0] || null`. Out-of-range reads crash as in the default
strategy and are modelled as `none`. -/
def selectQELoop (modelGiven allEx : Bool) (canUse : PoolToken → Bool)
    (prep : PoolToken → PrepResult) (startIndex totalAvailable : ℕ) :
    ℕ → ℕ → List PoolToken → List ℕ → Option PoolToken
  | 0, _, toks, _ => (resetAllQuotas toks).get? 0
  | fuel + 1, i, toks, availIdx =>
    match availIdx.get? ((startIndex + i) % totalAvailable) with
    | none => none
    | some tokenIndex =>
      match toks.get? tokenIndex with
      | none => none
      | some token =>
        if modelGiven && !allEx && !canUse token then
          selectQELoop modelGiven allEx canUse prep startIndex totalAvailable fuel (i + 1) toks availIdx
        else
          match prep token with
          | .ready => some token
          | .skip => selectQELoop modelGiven allEx canUse prep startIndex totalAvailable fuel (i + 1) toks availIdx
          | .disable =>
            if (disableTokenFilter toks token).length = 0 ||
                (rebuildAvailableQuotaTokens (disableTokenFilter toks token)).length = 0 then none
            else selectQELoop modelGiven allEx canUse prep startIndex totalAvailable fuel (i + 1)
              (disableTokenFilter toks token) (rebuildAvailableQuotaTokens (disableTokenFilter toks token))

/-- Token list actually used by the quota-exhausted strategy: when the
available-index list is empty on entry, `_resetAllQuotas` has run first
(lines 1033-1035). -/
def qeEffectiveTokens (toks0 : List PoolToken) (availIdx0 : List ℕ) : List PoolToken :=
  if availIdx0.isEmpty then resetAllQuotas toks0 else toks0

/-- Available-index list actually used by the quota-exhausted strategy:
rebuilt from the reset tokens when it was empty on entry. -/
def qeEffectiveAvail (toks0 : List PoolToken) (availIdx0 : List ℕ) : List ℕ :=
  if availIdx0.isEmpty then rebuildAvailableQuotaTokens (qeEffectiveTokens toks0 availIdx0)
  else availIdx0

/-- Mirrors `_getTokenForQuotaExhaustedStrategy` (lines 1031-1093): reset
all quotas when the available list is empty, bail out when it is still
empty, then run the loop from `currentQuotaIndex % totalAvailable`. -/
def selectQE (modelGiven : Bool) (canUse : PoolToken → Bool) (prep : PoolToken → PrepResult)
    (qIdx : ℕ) (toks0 : List PoolToken) (availIdx0 : List ℕ) : Option PoolToken :=
  if (qeEffectiveAvail toks0 availIdx0).length = 0 then none
  else
    selectQELoop modelGiven
      (allTokensExhausted modelGiven canUse (qeEffectiveTokens toks0 availIdx0)) canUse prep
      (qIdx % (qeEffectiveAvail toks0 availIdx0).length)
      (qeEffectiveAvail toks0 availIdx0).length
      (qeEffectiveAvail toks0 availIdx0).length 0
      (qeEffectiveTokens toks0 availIdx0) (qeEffectiveAvail toks0 availIdx0)

/-- Rotation strategies of the pool (the `RotationStrategy` enumeration). -/
inductive RotationStrategy
  | round_robin
  | quota_exhausted
  | request_count
  deriving DecidableEq, Repr

/-- Mirrors `getToken` (lines 1014-1024): empty pool returns null, the
quota-exhausted strategy has its own path, every other strategy uses the
default path. -/
def getTokenResult (strategy : RotationStrategy) (modelGiven : Bool) (canUse : PoolToken → Bool)
    (prep : PoolToken → PrepResult) (cursor qIdx : ℕ)
    (toks : List PoolToken) (availIdx : List ℕ) : Option PoolToken :=
  if toks.length = 0 then none
  else
    match strategy with
    | .quota_exhausted => selectQE modelGiven canUse prep qIdx toks availIdx
    | _ => selectDefault modelGiven canUse prep cursor toks

/-- Pool-state operations whose interleaving claim C5 quantifies over:
`reload` re-reads a stored list and keeps the `enable !== false` entries
(`_initialize`, line 327), `disable` removes a token from the working set
(`disableToken`, line 808). -/
inductive PoolOp
  | reload (stored : List PoolToken)
  | disable (token : PoolToken)

/-- Applies one pool operation to the in-memory token list. -/
def applyPoolOp (toks : List PoolToken) : PoolOp → List PoolToken
  | .reload stored => stored.filter (fun t => t.enable)
  | .disable token => disableTokenFilter toks token

/-- In-memory token list after `_initialize` on `stored` followed by any
interleaving of disable and reload operations. -/
def runPoolOps (stored : List PoolToken) (ops : List PoolOp) : List PoolToken :=
  ops.foldl applyPoolOp (stored.filter (fun t => t.enable))

/- ===================== Concurrent refresh wave (_refreshExpiredTokensConcurrently) ===================== -/

/-- Outcome of the OAuth refresh network call for one token: success, or a
failure carrying the upstream HTTP status (`refreshToken` wraps any error
into a TokenError with `statusCode || 500`, so a status is always
present). -/
inductive RefreshNet
  | ok
  | fail (statusCode : ℕ)
  deriving DecidableEq, Repr

/-- Result of `_refreshTokenSafe` as consumed through
`Promise.allSettled`: fulfilled with success, fulfilled with disable
(status 403 or 400), or rejected (the error was re-thrown). -/
inductive RefreshSafeResult
  | success
  | disable
  | rejected (statusCode : ℕ)
  deriving DecidableEq, Repr

/-- Mirrors `_refreshTokenSafe` (lines 422-433). -/
def refreshTokenSafe (r : RefreshNet) : RefreshSafeResult :=
  match r with
  | .ok => .success
  | .fail statusCode => if statusCode = 403 || statusCode = 400 then .disable else .rejected statusCode

/-- Mirrors `_refreshExpiredTokensConcurrently` (lines 364-414) on the token
list: all expired tokens are refreshed, each result is consumed
independently (`Promise.allSettled` never aborts the wave), and exactly the
tokens whose refresh settled as `disable` are passed to `disableToken`.
The per-token refresh outcome is the oracle `net`; `isExp` is `isExpired`. -/
def refreshExpiredTokensConcurrently (isExp : PoolToken → Bool) (net : PoolToken → RefreshNet)
    (toks : List PoolToken) : List PoolToken :=
  let expiredTokens := toks.filter isExp
  let tokensToDisable := expiredTokens.filter (fun t =>
    match refreshTokenSafe (net t) with
    | .disable => true
    | _ => false)
  tokensToDisable.foldl disableTokenFilter toks

/- ===================== Request-count rotation cadence ===================== -/

/-- Per-credential request counters, keyed like `tokenRequestCounts` by the
refresh token; a missing key reads as 0 (`get(tokenKey) || 0`). -/
abbrev ReqCounts := String → ℕ

/-- Mirrors `incrementRequestCount` (lines 815-820). -/
def incrementRequestCount (counts : ReqCounts) (tokenKey : String) : ReqCounts :=
  fun k => if k = tokenKey then counts tokenKey + 1 else counts k

/-- Mirrors `resetRequestCount` (lines 823-825). -/
def resetRequestCount (counts : ReqCounts) (tokenKey : String) : ReqCounts :=
  fun k => if k = tokenKey then 0 else counts k

/-- Pool state observed by the request-count cadence: the cursor
`currentIndex`, the counters, and a ghost counter of how many times the
cursor-advance branch (line 1141-1142) has fired. -/
structure RCState where
  currentIndex : ℕ
  counts : ReqCounts
  advances : ℕ

/-- State of a freshly initialized pool: cursor 0, all counters 0. -/
def rcInitState : RCState :=
  { currentIndex := 0, counts := fun _ => 0, advances := 0 }

/-- One selection under the `request_count` strategy with no model filter
and no refresh errors, from `_getTokenForDefaultStrategy` (lines
1110-1146): the loop returns the token at the cursor on its first
iteration, and before returning checks the counter; when it has reached
`requestCountPerToken` (`N`), the counter is reset and the cursor advances.
Returns the key of the credential that serves the request. -/
def rcSelectStep (N : ℕ) (keys : List String) (s : RCState) : String × RCState :=
  if N ≤ s.counts (keys.getD (s.currentIndex % keys.length) "") then
    (keys.getD (s.currentIndex % keys.length) "",
      { currentIndex := (s.currentIndex % keys.length + 1) % keys.length,
        counts := resetRequestCount s.counts (keys.getD (s.currentIndex % keys.length) ""),
        advances := s.advances + 1 })
  else
    (keys.getD (s.currentIndex % keys.length) "",
      { s with currentIndex := s.currentIndex % keys.length })

/-- Modelled from the spec: the request pipeline records one completed
request per selection by incrementing the counter of the served credential
(`incrementRequestCount`); the route handlers that invoke it are not part
of the extracted sources. One full call = select, serve, count. -/
def rcCompletedCall (N : ℕ) (keys : List String) (s : RCState) : RCState :=
  { (rcSelectStep N keys s).2 with
    counts := incrementRequestCount (rcSelectStep N keys s).2.counts (rcSelectStep N keys s).1 }

/-- State after n completed requests against a fresh pool. -/
def rcRun (N : ℕ) (keys : List String) (n : ℕ) : RCState :=
  (rcCompletedCall N keys)^[n] rcInitState

/- ===================== 404 middleware (src/server/index.js lines 158-194) ===================== -/

/-- Mirrors `whitelistPaths` of the 404 middleware. -/
def whitelistPaths : List String :=
  [ "/favicon.ico",
    "/robots.txt",
    "/.well-known",
    "/ws/logs",
    "/api/event_logging",
    "/v1/complete",
    "/v1/models",
    "/v1/files",
    "/v1/fine-tunes",
    "/v1/fine_tuning",
    "/v1/assistants",
    "/v1/threads",
    "/v1/batches",
    "/v1/uploads",
    "/v1/organization",
    "/v1/usage",
    "/v1beta/models" ]

/-- Mirrors the whitelist test of the 404 middleware (line 186): exact
match with an entry, or the entry followed by a slash as a path stem. -/
def isWhitelisted (path : String) : Bool :=
  whitelistPaths.any (fun p => path == p || path.startsWith (p ++ "/"))

/-- Observable outcome of the 404 middleware: HTTP status of the response
and whether the recordViolation call of ipBlockManager ran. -/
structure NotFoundOutcome where
  status : ℕ
  violationRecorded : Bool
  deriving DecidableEq, Repr

/-- Mirrors the 404 middleware body (lines 185-193). -/
def notFoundHandler (path : String) : NotFoundOutcome :=
  if isWhitelisted path then
    { status := 404, violationRecorded := false }
  else
    { status := 404, violationRecorded := true }

/- ===================== Model list (src/api: DEFAULT_MODELS, getAvailableModels) ===================== -/

/-- Mirrors `DEFAULT_MODELS` (lines 1476-1494), the frozen default model
list. -/
def DEFAULT_MODELS : List String :=
  [ "claude-opus-4-5",
    "claude-opus-4-5-thinking",
    "claude-sonnet-4-5-thinking",
    "claude-sonnet-4-5",
    "gemini-3-pro-high",
    "gemini-2.5-flash-lite",
    "gemini-3-pro-image",
    "gemini-3-pro-image-4K",
    "gemini-3-pro-image-2K",
    "gemini-2.5-flash-thinking",
    "gemini-2.5-pro",
    "gemini-2.5-flash",
    "gemini-3-pro-low",
    "chat_20706",
    "rev19-uic3-1p",
    "gpt-oss-120b-medium",
    "chat_23310" ]

/-- Upstream outcome of the fetchAvailableModels POST: a 200 whose parsed
body is falsy (`!data`), a 200 carrying the keys of `data.models`
(`data.models || {}` makes an absent map the empty list), or a failure
with an HTTP status and the permission verdict on its body. -/
inductive UpstreamFetch
  | okFalsyBody
  | okJson (models : List String)
  | fail (status : ℕ) (callerDoesNotHavePermission : Bool)
  deriving DecidableEq, Repr

/-- Mirrors `fetchRawModels` (lines 1628-1648): a failure lands in the
catch block, which awaits `handleApiError`; `handleApiError` throws on
every path, so the error propagates out of `fetchRawModels` (the implicit
`return undefined` after it is unreachable). -/
def fetchRawModels (u : UpstreamFetch) : Except ApiErrorAction (Option (List String)) :=
  match u with
  | .okFalsyBody => .ok none
  | .okJson models => .ok (some models)
  | .fail status perm => .error (handleApiError status perm)

/-- Mirrors `getAvailableModels` (lines 1650-1705) on a cache miss, keeping
only the model ids of the response (the `created`/`owned_by` dressing and
the cache update carry no information for the claim). `tokenAvailable`
says whether `tokenManager.getToken()` produced a credential. -/
def getAvailableModels (tokenAvailable : Bool) (u : UpstreamFetch) :
    Except ApiErrorAction (List String) :=
  if !tokenAvailable then .ok DEFAULT_MODELS
  else
    match fetchRawModels u with
    | .error e => .error e
    | .ok none => .ok DEFAULT_MODELS
    | .ok (some models) =>
      .ok (models ++ DEFAULT_MODELS.filter (fun d => !models.contains d))

/- ===================== Memory cleaner (src/utils/memoryManager.js) ===================== -/

/-- Registered cleanup callback, acting on the ambient mutable state σ.
The JS callback may throw after performing part of its effect, so it
returns the state it left behind together with the error it threw, if
any. -/
abbrev CleanupCallback (σ : Type) : Type :=
  σ → σ × Option String

/-- Mirrors `MemoryManager.cleanup` (lines 89-97): every registered
callback runs inside its own try/catch, an error is only logged, and the
iteration continues; the function itself always returns normally, which
the total return type expresses. -/
def memoryManagerCleanup {σ : Type} (cbs : List (CleanupCallback σ)) (s : σ) : σ :=
  cbs.foldl (fun st cb => (cb st).1) s

/- ===================== Helper lemmas ===================== -/

/-- Bounds of the clamp: `clamp01` always lands in [0, 1]. -/
theorem clamp01_bounds (v : ℚ) : 0 ≤ clamp01 v ∧ clamp01 v ≤ 1 := by
  unfold clamp01
  constructor
  · exact le_min (by norm_num) (le_max_left 0 v)
  · exact min_le_left 1 _

/-- Clamping is the identity on [0, 1]. -/
theorem clamp01_eq_self (v : ℚ) (h0 : 0 ≤ v) (h1 : v ≤ 1) : clamp01 v = v := by
  unfold clamp01
  rw [max_eq_right h0, min_eq_right h1]

/-- The minRemaining fold stays in [0, 1] whatever it starts from in
[0, 1]. -/
theorem foldl_clamp_min_bounds (items : List ℚ) (init : ℚ) (h0 : 0 ≤ init) (h1 : init ≤ 1) :
    0 ≤ items.foldl (fun minRemaining q => if clamp01 q < minRemaining then clamp01 q else minRemaining) init ∧
    items.foldl (fun minRemaining q => if clamp01 q < minRemaining then clamp01 q else minRemaining) init ≤ 1 := by
  induction items generalizing init with
  | nil => exact ⟨h0, h1⟩
  | cons q rest ih =>
    simp only [List.foldl_cons]
    by_cases h : clamp01 q < init
    · simp only [h, if_pos]
      exact ih (clamp01 q) (clamp01_bounds q).1 (clamp01_bounds q).2
    · simp only [h, if_neg, not_false_eq_true]
      exact ih init h0 h1

/-- The minimum remaining fraction of a group lies in [0, 1]. -/
theorem minRemainingOf_bounds (items : List ℚ) :
    0 ≤ minRemainingOf items ∧ minRemainingOf items ≤ 1 :=
  foldl_clamp_min_bounds items 1 (by norm_num) (by norm_num)

/- ===================== Claim theorems ===================== -/

/-- Claim C1, counterexample. The claim states the groups are tested in
the order claude, gemini, banana, other; the source tests banana BEFORE
gemini (QUOTA_GROUPS, public/js/quota.js lines 97-122), and the order
matters: the model id gemini-3-pro-image is assigned to banana by the
code, while the claim-stated order would assign it to gemini (the id
contains the substring gemini). -/
theorem c1_group_order_counterexample :
    groupKeyForModel "gemini-3-pro-image" = "banana" ∧
    groupKeyForModelClaimOrder "gemini-3-pro-image" = "gemini" ∧
    groupKeyForModel "gemini-3-pro-image" ≠ groupKeyForModelClaimOrder "gemini-3-pro-image" := by
  decide

/-- Claim C1, amended: the quota group of a model id is chosen by
case-insensitive substring match, testing the groups in the order claude,
BANANA, gemini, other, and taking the first group whose matcher accepts
the id; the catch-all other makes the assignment total and unique. The
first-match semantics is stated as an exact characterization of each
possible answer. -/
theorem c1_group_assignment (modelId : String) :
    (groupKeyForModel modelId = "claude" ↔
      jsIncludes (jsToLower modelId) "claude" = true) ∧
    (groupKeyForModel modelId = "banana" ↔
      (jsIncludes (jsToLower modelId) "claude" = false ∧
       jsIncludes (jsToLower modelId) "gemini-3-pro-image" = true)) ∧
    (groupKeyForModel modelId = "gemini" ↔
      (jsIncludes (jsToLower modelId) "claude" = false ∧
       jsIncludes (jsToLower modelId) "gemini-3-pro-image" = false ∧
       (jsIncludes (jsToLower modelId) "gemini" = true ∨
        jsIncludes (jsToLower modelId) "publishers/google/" = true))) ∧
    (groupKeyForModel modelId = "other" ↔
      (jsIncludes (jsToLower modelId) "claude" = false ∧
       jsIncludes (jsToLower modelId) "gemini-3-pro-image" = false ∧
       jsIncludes (jsToLower modelId) "gemini" = false ∧
       jsIncludes (jsToLower modelId) "publishers/google/" = false)) := by
  cases h1 : jsIncludes (jsToLower modelId) "claude" <;>
    cases h2 : jsIncludes (jsToLower modelId) "gemini-3-pro-image" <;>
      cases h3 : jsIncludes (jsToLower modelId) "gemini" <;>
        cases h4 : jsIncludes (jsToLower modelId) "publishers/google/" <;>
          simp [groupKeyForModel, QUOTA_GROUPS, List.find?, h1, h2, h3, h4]

/-- Claim C2: for a nonempty group, the estimated-requests figure of
`summarizeGroup` equals floor(remaining_pct / 0.6667) minus the recorded
request counter, clamped below at 0, where remaining_pct is the minimum
remaining fraction of the group expressed as a percentage. -/
theorem c2_estimated_requests (items : List ℚ) (requestCount : ℕ) (h : items ≠ []) :
    summarizeGroupEstimatedRequests items requestCount =
      max 0 (⌊(minRemainingOf items * 100) / (6667 / 10000 : ℚ)⌋ - (requestCount : ℤ)) := by
  unfold summarizeGroupEstimatedRequests estimatedRequestsOf toPercentage
  rw [if_neg (by simpa using h)]
  rw [clamp01_eq_self _ (minRemainingOf_bounds items).1 (minRemainingOf_bounds items).2]

/-- Witness for C2: a group holding one model at remaining fraction 1/2
with 10 recorded requests estimates floor(50 / 0.6667) - 10 = 64 requests
remaining. -/
theorem c2_estimated_requests_witness :
    (([(1 : ℚ)/2] : List ℚ) ≠ []) ∧
    summarizeGroupEstimatedRequests [(1 : ℚ)/2] 10 = 64 := by
  refine ⟨by simp, ?_⟩
  rw [c2_estimated_requests [(1 : ℚ)/2] 10 (by simp)]
  unfold minRemainingOf clamp01
  norm_num

/-- Claim C3, counterexample. The claim says a 403 whose body indicates
caller-does-not-have-permission disables the credential and fails as
no-permission, while any other 403 fails as context-too-long leaving the
credential enabled. The source (handleApiError, lines 1563-1569) does the
opposite: the caller-does-not-have-permission body is treated as the
context-too-long case without disabling, and every OTHER 403 disables the
credential and fails as no-permission. -/
theorem c3_403_counterexample :
    (handleApiError 403 true).disableCurrent = false ∧
    (handleApiError 403 true).kind = ApiErrorKind.contextTooLong ∧
    (handleApiError 403 false).disableCurrent = true ∧
    (handleApiError 403 false).kind = ApiErrorKind.noPermission := by
  decide

/-- Claim C3, amended: for an upstream 403, if the body indicates
caller-does-not-have-permission the request fails as context-too-long and
the credential is left enabled; any OTHER 403 body disables the credential
in use and fails the request as no-permission. Non-403 statuses never
disable the credential here. -/
theorem c3_403_classification (status : ℕ) (perm : Bool) :
    ((handleApiError status perm).disableCurrent = true ↔ (status = 403 ∧ perm = false)) ∧
    ((handleApiError status perm).kind = ApiErrorKind.contextTooLong ↔ (status = 403 ∧ perm = true)) ∧
    ((handleApiError status perm).kind = ApiErrorKind.noPermission ↔ (status = 403 ∧ perm = false)) ∧
    (handleApiError status perm).status = status := by
  by_cases h : status = 403 <;> cases perm <;> simp [handleApiError, h]

/-- Claim C8: every request reaching the 404 middleware gets status 404,
and a violation is recorded if and only if the path is not whitelisted,
where whitelisting is an exact match with a whitelist entry or a prefix
match with the entry followed by a slash. -/
theorem c8_not_found_handler (path : String) :
    (notFoundHandler path).status = 404 ∧
    ((notFoundHandler path).violationRecorded = false ↔
      ∃ p ∈ whitelistPaths, path = p ∨ path.startsWith (p ++ "/") = true) := by
  have hiff : isWhitelisted path = true ↔
      ∃ p ∈ whitelistPaths, path = p ∨ path.startsWith (p ++ "/") = true := by
    simp [isWhitelisted, List.any_eq_true, beq_iff_eq]
  refine ⟨?_, ?_⟩
  · unfold notFoundHandler
    split <;> rfl
  · rw [← hiff]
    unfold notFoundHandler
    cases h : isWhitelisted path <;> simp [h]

/-- Theorem for claim C9 (code bug), evaluating the code at the failing
input: with a credential available and the upstream fetchAvailableModels
call failing with HTTP 500, `getAvailableModels` does NOT fall back to the
default model list; the error thrown by `handleApiError` propagates to the
caller (the fallback comment at line 1668 is unreachable for failures,
because `handleApiError` throws on every path). -/
theorem c9_upstream_failure_raises :
    getAvailableModels true (UpstreamFetch.fail 500 false) =
      Except.error { disableCurrent := false, kind := ApiErrorKind.apiRequestFailed, status := 500 } ∧
    getAvailableModels true (UpstreamFetch.fail 500 false) ≠ Except.ok DEFAULT_MODELS := by
  constructor
  · rfl
  · intro hcontra
    exact absurd hcontra (by simp [getAvailableModels, fetchRawModels, handleApiError])

/-- Claim C10: `MemoryManager.cleanup` invokes every registered callback
exactly once per call, in registration order, and an exception thrown by a
callback is caught internally: the remaining callbacks still run (second
conjunct: the thrown error component has no influence on the rest of the
run) and nothing propagates to the caller (the embedding is a total
function into the state). Splitting the callback list around an arbitrary
member shows that member is applied exactly once, to the state left by the
callbacks before it. -/
theorem c10_cleanup_callbacks {σ : Type} (pre post : List (CleanupCallback σ))
    (cb : CleanupCallback σ) (s : σ) :
    (memoryManagerCleanup (pre ++ cb :: post) s =
      memoryManagerCleanup post ((cb (memoryManagerCleanup pre s)).1)) ∧
    (∀ e : Option String,
      memoryManagerCleanup (pre ++ (fun st => ((cb st).1, e)) :: post) s =
        memoryManagerCleanup post ((cb (memoryManagerCleanup pre s)).1)) := by
  unfold memoryManagerCleanup
  exact ⟨by rw [List.foldl_append, List.foldl_cons], fun e => by rw [List.foldl_append, List.foldl_cons]⟩

/-- Folding list filters keeps exactly the elements that survive every
filter of the sequence. -/
theorem mem_foldl_filter {α : Type} (p : α → α → Bool) (ds : List α) (init : List α) (x : α) :
    x ∈ ds.foldl (fun cur d => cur.filter (fun t => p t d)) init ↔
      x ∈ init ∧ ∀ d ∈ ds, p x d = true := by
  induction ds generalizing init with
  | nil => simp
  | cons d rest ih =>
    simp only [List.foldl_cons, ih, List.mem_filter, List.mem_cons]
    constructor
    · rintro ⟨⟨hx, hpd⟩, hall⟩
      exact ⟨hx, fun e he => by rcases he with rfl | he; exact hpd; exact hall e he⟩
    · rintro ⟨hx, hall⟩
      exact ⟨⟨hx, hall d (Or.inl rfl)⟩, fun e he => hall e (Or.inr he)⟩

/-- The safe-refresh result is `disable` exactly for failures with status
400 or 403. -/
theorem refreshTokenSafe_disable_iff (r : RefreshNet) :
    refreshTokenSafe r = RefreshSafeResult.disable ↔
      ∃ c, r = RefreshNet.fail c ∧ (c = 400 ∨ c = 403) := by
  cases r with
  | ok => simp [refreshTokenSafe]
  | fail c =>
    by_cases h3 : c = 403
    · simp [refreshTokenSafe, h3]
    · by_cases h4 : c = 400 <;> simp [refreshTokenSafe, h3, h4]

/-- Claim C6: during the initialization refresh wave, a token survives if
and only if it is not an expired token whose refresh failed with HTTP 400
or 403. In particular an expired token whose refresh failed with any other
status stays enabled, and the fate of each token depends only on its own
refresh outcome: no combination of failures removes any other token
(Promise.allSettled consumes every result independently). Distinct
credentials are assumed to carry distinct refresh secrets, the pool
invariant of the store. -/
theorem c6_refresh_wave (toks : List PoolToken) (isExp : PoolToken → Bool)
    (net : PoolToken → RefreshNet)
    (hnd : (toks.map (fun t => t.refresh_token)).Nodup) (t : PoolToken) :
    t ∈ refreshExpiredTokensConcurrently isExp net toks ↔
      (t ∈ toks ∧ ¬(isExp t = true ∧ ∃ c, net t = RefreshNet.fail c ∧ (c = 400 ∨ c = 403))) := by
  have hinj : ∀ x ∈ toks, ∀ y ∈ toks, x.refresh_token = y.refresh_token → x = y :=
    List.inj_on_of_nodup_map hnd
  unfold refreshExpiredTokensConcurrently disableTokenFilter
  rw [mem_foldl_filter]
  constructor
  · rintro ⟨hmem, hall⟩
    refine ⟨hmem, ?_⟩
    rintro ⟨hexp, c, hc, hcs⟩
    have hdis : refreshTokenSafe (net t) = RefreshSafeResult.disable :=
      (refreshTokenSafe_disable_iff (net t)).2 ⟨c, hc, hcs⟩
    have htd : t ∈ (toks.filter isExp).filter (fun t =>
        match refreshTokenSafe (net t) with
        | .disable => true
        | _ => false) := by
      rw [List.mem_filter, List.mem_filter]
      exact ⟨⟨hmem, hexp⟩, by rw [hdis]⟩
    have := hall t htd
    simp at this
  · rintro ⟨hmem, hno⟩
    refine ⟨hmem, ?_⟩
    intro d hd
    rw [List.mem_filter, List.mem_filter] at hd
    obtain ⟨⟨hdmem, hdexp⟩, hddis⟩ := hd
    have hdis : refreshTokenSafe (net d) = RefreshSafeResult.disable := by
      revert hddis
      cases refreshTokenSafe (net d) <;> simp
    by_contra hbne
    have heq : t.refresh_token = d.refresh_token := by
      simpa using hbne
    have : t = d := hinj t hmem d hdmem heq
    subst this
    exact hno ⟨hdexp, (refreshTokenSafe_disable_iff (net t)).1 hdis⟩

/-- Witness for C6: the boot scenario of the spec, four expired
credentials refreshed concurrently; two succeed, one fails with 403, one
fails with 500. The 403 one is disabled, the 500 one is retained. -/
theorem c6_refresh_wave_witness :
    ((([⟨"r1", "a1", true, true⟩, ⟨"r2", "a2", true, true⟩,
        ⟨"r3", "a3", true, true⟩, ⟨"r4", "a4", true, true⟩] : List PoolToken).map
          (fun t => t.refresh_token)).Nodup) ∧
    ((⟨"r4", "a4", true, true⟩ : PoolToken) ∈
      refreshExpiredTokensConcurrently (fun _ => true)
        (fun t =>
          if t.refresh_token = "r3" then RefreshNet.fail 403
          else if t.refresh_token = "r4" then RefreshNet.fail 500
          else RefreshNet.ok)
        [⟨"r1", "a1", true, true⟩, ⟨"r2", "a2", true, true⟩,
         ⟨"r3", "a3", true, true⟩, ⟨"r4", "a4", true, true⟩] ↔
      ((⟨"r4", "a4", true, true⟩ : PoolToken) ∈
        ([⟨"r1", "a1", true, true⟩, ⟨"r2", "a2", true, true⟩,
          ⟨"r3", "a3", true, true⟩, ⟨"r4", "a4", true, true⟩] : List PoolToken) ∧
       ¬((fun (_ : PoolToken) => true) (⟨"r4", "a4", true, true⟩ : PoolToken) = true ∧
         ∃ c, (if ("r4" : String) = "r3" then RefreshNet.fail 403
               else if ("r4" : String) = "r4" then RefreshNet.fail 500
               else RefreshNet.ok) = RefreshNet.fail c ∧ (c = 400 ∨ c = 403)))) := by
  constructor
  · decide
  · exact c6_refresh_wave _ _ _ (by decide) _

/-- A successful default-strategy loop run only returns enabled tokens when
every token of the working list is enabled (disabling only shrinks the
list). -/
theorem selectDefaultLoop_enable (modelGiven allEx : Bool) (canUse : PoolToken → Bool)
    (prep : PoolToken → PrepResult) (start total : ℕ) :
    ∀ (fuel i : ℕ) (toks : List PoolToken) (t : PoolToken),
      (∀ x ∈ toks, x.enable = true) →
      selectDefaultLoop modelGiven allEx canUse prep start total fuel i toks = some t →
      t.enable = true := by
  intro fuel
  induction fuel with
  | zero => intro i toks t _ h; simp [selectDefaultLoop] at h
  | succ fuel ih =>
    intro i toks t hen h
    unfold selectDefaultLoop at h
    split at h
    · exact absurd h (by simp)
    · rename_i token hget
      split at h
      · exact ih (i + 1) toks t hen h
      · split at h
        · have : token = t := by simpa using h
          subst this
          exact hen token (List.get?_mem hget)
        · exact ih (i + 1) toks t hen h
        · split at h
          · exact absurd h (by simp)
          · exact ih (i + 1) (disableTokenFilter toks token) t
              (fun x hx => hen x (List.mem_of_mem_filter hx)) h

/-- Resetting the quota flags preserves every other field, in particular
the enable flag. -/
theorem resetAllQuotas_enable (toks : List PoolToken) (h : ∀ x ∈ toks, x.enable = true) :
    ∀ x ∈ resetAllQuotas toks, x.enable = true := by
  intro x hx
  unfold resetAllQuotas at hx
  rw [List.mem_map] at hx
  obtain ⟨y, hy, rfl⟩ := hx
  exact h y hy

/-- A successful quota-exhausted-strategy loop run only returns enabled
tokens when every token of the working list is enabled (the fallback
branch resets quota flags but never touches the enable flag). -/
theorem selectQELoop_enable (modelGiven allEx : Bool) (canUse : PoolToken → Bool)
    (prep : PoolToken → PrepResult) (startIndex totalAvailable : ℕ) :
    ∀ (fuel i : ℕ) (toks : List PoolToken) (availIdx : List ℕ) (t : PoolToken),
      (∀ x ∈ toks, x.enable = true) →
      selectQELoop modelGiven allEx canUse prep startIndex totalAvailable fuel i toks availIdx = some t →
      t.enable = true := by
  intro fuel
  induction fuel with
  | zero =>
    intro i toks availIdx t hen h
    unfold selectQELoop at h
    exact resetAllQuotas_enable toks hen t (List.get?_mem h)
  | succ fuel ih =>
    intro i toks availIdx t hen h
    unfold selectQELoop at h
    split at h
    · exact absurd h (by simp)
    · rename_i tokenIndex hgi
      split at h
      · exact absurd h (by simp)
      · rename_i token hget
        split at h
        · exact ih (i + 1) toks availIdx t hen h
        · split at h
          · have : token = t := by simpa using h
            subst this
            exact hen token (List.get?_mem hget)
          · exact ih (i + 1) toks availIdx t hen h
          · split at h
            · exact absurd h (by simp)
            · exact ih (i + 1) (disableTokenFilter toks token)
                (rebuildAvailableQuotaTokens (disableTokenFilter toks token)) t
                (fun x hx => hen x (List.mem_of_mem_filter hx)) h

/-- Folding pool operations over a list of enabled tokens keeps every
member enabled. -/
theorem foldl_poolOps_enabled (ops : List PoolOp) :
    ∀ (init : List PoolToken), (∀ x ∈ init, x.enable = true) →
      ∀ x ∈ ops.foldl applyPoolOp init, x.enable = true := by
  induction ops with
  | nil => intro init h x hx; exact h x hx
  | cons op rest ih =>
    intro init h x hx
    rw [List.foldl_cons] at hx
    refine ih (applyPoolOp init op) ?_ x hx
    intro y hy
    cases op with
    | reload stored2 => exact (List.mem_filter.1 hy).2
    | disable token => exact h y (List.mem_of_mem_filter hy)

/-- Every token list reachable from a stored list through initialization,
disables and reloads consists of enabled tokens only. -/
theorem runPoolOps_all_enabled (stored : List PoolToken) (ops : List PoolOp) :
    ∀ x ∈ runPoolOps stored ops, x.enable = true := by
  unfold runPoolOps
  exact foldl_poolOps_enabled ops (stored.filter (fun t => t.enable))
    (fun x hx => (List.mem_filter.1 hx).2)

/-- Claim C5: whatever the rotation strategy, after `_initialize` on any
stored credential list followed by any interleaving of `disableToken` and
`reload`, a credential returned by `getToken` never has enable = false.
The per-token preparation outcome and the model filter are arbitrary. -/
theorem c5_selection_only_enabled (stored : List PoolToken) (ops : List PoolOp)
    (strategy : RotationStrategy) (modelGiven : Bool) (canUse : PoolToken → Bool)
    (prep : PoolToken → PrepResult) (cursor qIdx : ℕ) (availIdx : List ℕ) (t : PoolToken)
    (h : getTokenResult strategy modelGiven canUse prep cursor qIdx (runPoolOps stored ops) availIdx
          = some t) :
    t.enable = true := by
  have hen : ∀ x ∈ runPoolOps stored ops, x.enable = true := runPoolOps_all_enabled stored ops
  unfold getTokenResult at h
  split at h
  · exact absurd h (by simp)
  · split at h
    · unfold selectQE at h
      split at h
      · exact absurd h (by simp)
      · refine selectQELoop_enable _ _ _ _ _ _ _ _ _ _ _ ?_ h
        intro x hx
        unfold qeEffectiveTokens at hx
        by_cases hemp : availIdx.isEmpty = true
        · rw [if_pos hemp] at hx
          exact resetAllQuotas_enable _ hen x hx
        · rw [if_neg hemp] at hx
          exact hen x hx
    · exact selectDefaultLoop_enable _ _ _ _ _ _ _ _ _ _ hen h

/-- Witness for C5: a stored list holding one enabled and one disabled
credential; round-robin selection with no model filter returns the enabled
one. -/
theorem c5_selection_only_enabled_witness :
    getTokenResult RotationStrategy.round_robin false (fun _ => true) (fun _ => PrepResult.ready)
        0 0 (runPoolOps [⟨"r1", "a1", true, true⟩, ⟨"r2", "a2", false, true⟩] []) []
      = some ⟨"r1", "a1", true, true⟩ ∧
    (⟨"r1", "a1", true, true⟩ : PoolToken).enable = true := by
  refine ⟨by decide, ?_⟩
  exact c5_selection_only_enabled [⟨"r1", "a1", true, true⟩, ⟨"r2", "a2", false, true⟩] []
    RotationStrategy.round_robin false (fun _ => true) (fun _ => PrepResult.ready)
    0 0 [] ⟨"r1", "a1", true, true⟩ (by decide)

/-- Claim C4, counterexample. Under the quota_exhausted strategy the loop
only walks the derived available-quota index list. With pool [B, A] where
B has the coarse quota flag set (so it is in the derived list) but is in
cooldown for the requested model, while A has the coarse flag cleared (so
it is NOT in the derived list) but is usable for the model: not every
enabled credential is in cooldown or quota-zero for the model (A is
usable), yet the loop skips B, falls through, resets the quota flags and
returns tokens[0] = B, a credential in cooldown for the requested model. -/
theorem c4_cooldown_counterexample :
    getTokenResult RotationStrategy.quota_exhausted true
        (fun t => t.refresh_token == "rA") (fun _ => PrepResult.ready) 0 0
        [⟨"rB", "aB", true, true⟩, ⟨"rA", "aA", true, false⟩] [0]
      = some ⟨"rB", "aB", true, true⟩ ∧
    ((fun (t : PoolToken) => t.refresh_token == "rA") ⟨"rB", "aB", true, true⟩) = false ∧
    allTokensExhausted true (fun t => t.refresh_token == "rA")
        [⟨"rB", "aB", true, true⟩, ⟨"rA", "aA", true, false⟩] = false := by
  decide

/-- Walking j steps around a cycle of length `total` from any start hits
any chosen residue. -/
theorem cycle_hits (total start j0 : ℕ) (h0 : j0 < total) :
    ∃ j, j < total ∧ (start + j) % total = j0 := by
  have htot : 0 < total := lt_of_le_of_lt (Nat.zero_le _) h0
  have hs : start % total < total := Nat.mod_lt _ htot
  refine ⟨(j0 + total - start % total) % total, Nat.mod_lt _ htot, ?_⟩
  have key : (start + (j0 + total - start % total)) % total = j0 := by
    have hdm : total * (start / total) + start % total = start := Nat.div_add_mod start total
    have hrw : start + (j0 + total - start % total) = total * (start / total) + total + j0 := by
      omega
    rw [hrw, show total * (start / total) + total + j0 = total * (start / total + 1) + j0 by ring,
      Nat.mul_add_mod]
    exact Nat.mod_eq_of_lt h0
  calc (start + (j0 + total - start % total) % total) % total
      = (start % total + (j0 + total - start % total) % total % total) % total := by
        rw [← Nat.add_mod]
    _ = (start % total + (j0 + total - start % total) % total) % total := by
        rw [Nat.mod_mod_of_dvd _ dvd_rfl]
    _ = (start + (j0 + total - start % total)) % total := by
        rw [← Nat.add_mod]
    _ = j0 := key

/-- With a model filter active and not all tokens exhausted, the default
strategy loop only ever returns a token that passes the filter, whatever
the preparation outcomes. -/
theorem selectDefaultLoop_filtered (canUse : PoolToken → Bool) (prep : PoolToken → PrepResult)
    (start total : ℕ) :
    ∀ (fuel i : ℕ) (toks : List PoolToken) (t : PoolToken),
      selectDefaultLoop true false canUse prep start total fuel i toks = some t →
      canUse t = true := by
  intro fuel
  induction fuel with
  | zero => intro i toks t h; simp [selectDefaultLoop] at h
  | succ fuel ih =>
    intro i toks t h
    unfold selectDefaultLoop at h
    split at h
    · exact absurd h (by simp)
    · rename_i token hget
      split at h
      · exact ih (i + 1) toks t h
      · rename_i hcond
        have hcu : canUse token = true := by
          revert hcond
          cases canUse token <;> simp
        split at h
        · have : token = t := by simpa using h
          subst this
          exact hcu
        · exact ih (i + 1) toks t h
        · split at h
          · exact absurd h (by simp)
          · exact ih (i + 1) (disableTokenFilter toks token) t h

/-- With a model filter active, not all tokens exhausted and no refresh
errors, the quota-exhausted loop returns a filter-passing token whenever
some position it can still visit holds one. -/
theorem selectQELoop_ready_hits (canUse : PoolToken → Bool) (start total : ℕ) :
    ∀ (fuel i : ℕ) (toks : List PoolToken) (avail : List ℕ) (t : PoolToken),
      selectQELoop true false canUse (fun _ => PrepResult.ready) start total fuel i toks avail = some t →
      (∃ j, j < fuel ∧ ∃ idx tok, avail.get? ((start + (i + j)) % total) = some idx ∧
        toks.get? idx = some tok ∧ canUse tok = true) →
      canUse t = true := by
  intro fuel
  induction fuel with
  | zero => intro i toks avail t h hex; exact absurd hex (by simp)
  | succ fuel ih =>
    intro i toks avail t h hex
    unfold selectQELoop at h
    split at h
    · exact absurd h (by simp)
    · rename_i tokenIndex hgi
      split at h
      · exact absurd h (by simp)
      · rename_i token hget
        split at h
        · rename_i hcond
          have hcu0 : canUse token = false := by
            revert hcond
            cases canUse token <;> simp
          obtain ⟨j, hj, idx, tok, hgi2, hget2, hcu⟩ := hex
          cases j with
          | zero =>
            rw [Nat.add_zero] at hgi2
            rw [hgi] at hgi2
            have : tokenIndex = idx := by simpa using hgi2
            subst this
            rw [hget] at hget2
            have : token = tok := by simpa using hget2
            subst this
            rw [hcu0] at hcu
            exact absurd hcu (by simp)
          | succ j2 =>
            refine ih (i + 1) toks avail t h ⟨j2, by omega, idx, tok, ?_, hget2, hcu⟩
            have harith : i + 1 + j2 = i + (j2 + 1) := by omega
            rw [harith]
            exact hgi2
        · rename_i hcond
          have hcu2 : canUse token = true := by
            revert hcond
            cases canUse token <;> simp
          split at h
          · have : token = t := by simpa using h
            subst this
            exact hcu2
          · rename_i hprep
            exact absurd hprep (by simp)
          · rename_i hprep
            exact absurd hprep (by simp)

/-- Claim C4, amended. For getToken with a model filter: under the
round_robin and request_count strategies the returned credential always
passes the cooldown-and-quota filter unless every enabled credential of
the pool fails it (then a best-effort credential may be returned). Under
the quota_exhausted strategy the same holds with the available-quota list
in place of the pool: with no refresh errors, if any credential reachable
through the derived available-quota index list passes the filter, the
returned credential passes it; when no listed credential passes it, the
fallback may return a credential that fails the filter even though an
unlisted enabled credential passes it (the counterexample). -/
theorem c4_model_filter (canUse : PoolToken → Bool) :
    (∀ (strategy : RotationStrategy) (prep : PoolToken → PrepResult) (cursor qIdx : ℕ)
        (toks : List PoolToken) (availIdx : List ℕ) (t : PoolToken),
        strategy ≠ RotationStrategy.quota_exhausted →
        getTokenResult strategy true canUse prep cursor qIdx toks availIdx = some t →
        allTokensExhausted true canUse toks = false →
        canUse t = true) ∧
    (∀ (qIdx : ℕ) (toks0 : List PoolToken) (availIdx0 : List ℕ) (t : PoolToken),
        getTokenResult RotationStrategy.quota_exhausted true canUse (fun _ => PrepResult.ready)
            0 qIdx toks0 availIdx0 = some t →
        allTokensExhausted true canUse (qeEffectiveTokens toks0 availIdx0) = false →
        (∃ j0 idx tok, (qeEffectiveAvail toks0 availIdx0).get? j0 = some idx ∧
            (qeEffectiveTokens toks0 availIdx0).get? idx = some tok ∧ canUse tok = true) →
        canUse t = true) := by
  constructor
  · intro strategy prep cursor qIdx toks availIdx t hne h hex
    unfold getTokenResult at h
    split at h
    · exact absurd h (by simp)
    · cases strategy with
      | quota_exhausted => exact absurd rfl hne
      | round_robin =>
        unfold selectDefault at h
        rw [hex] at h
        exact selectDefaultLoop_filtered canUse prep cursor toks.length _ _ _ _ h
      | request_count =>
        unfold selectDefault at h
        rw [hex] at h
        exact selectDefaultLoop_filtered canUse prep cursor toks.length _ _ _ _ h
  · intro qIdx toks0 availIdx0 t h hex hexists
    obtain ⟨j0, idx, tok, hj0, hidx, hcu⟩ := hexists
    unfold getTokenResult at h
    split at h
    · exact absurd h (by simp)
    · unfold selectQE at h
      by_cases hA : (qeEffectiveAvail toks0 availIdx0).length = 0
      · rw [if_pos hA] at h
        exact absurd h (by simp)
      · rw [if_neg hA, hex] at h
        have hj0lt : j0 < (qeEffectiveAvail toks0 availIdx0).length := by
          by_contra hge
          rw [List.get?_eq_none.2 (by omega)] at hj0
          exact absurd hj0 (by simp)
        obtain ⟨j, hjlt, hjmod⟩ :=
          cycle_hits (qeEffectiveAvail toks0 availIdx0).length
            (qIdx % (qeEffectiveAvail toks0 availIdx0).length) j0 hj0lt
        refine selectQELoop_ready_hits canUse _ _ _ _ _ _ _ h
          ⟨j, hjlt, idx, tok, ?_, hidx, hcu⟩
        rw [Nat.zero_add, hjmod]
        exact hj0

/-- Witness for C4: pool [B, A] under round_robin with a filter that only
accepts A; not all tokens are exhausted, and the selection returns A,
which passes the filter. -/
theorem c4_model_filter_witness :
    (RotationStrategy.round_robin ≠ RotationStrategy.quota_exhausted) ∧
    getTokenResult RotationStrategy.round_robin true (fun t => t.refresh_token == "rA")
        (fun _ => PrepResult.ready) 0 0
        [⟨"rB", "aB", true, true⟩, ⟨"rA", "aA", true, false⟩] []
      = some ⟨"rA", "aA", true, false⟩ ∧
    allTokensExhausted true (fun t => t.refresh_token == "rA")
        [⟨"rB", "aB", true, true⟩, ⟨"rA", "aA", true, false⟩] = false ∧
    ((fun (t : PoolToken) => t.refresh_token == "rA") ⟨"rA", "aA", true, false⟩) = true := by
  refine ⟨by decide, by decide, by decide, ?_⟩
  exact (c4_model_filter (fun t => t.refresh_token == "rA")).1
    RotationStrategy.round_robin (fun _ => PrepResult.ready) 0 0
    [⟨"rB", "aB", true, true⟩, ⟨"rA", "aA", true, false⟩] []
    ⟨"rA", "aA", true, false⟩ (by decide) (by decide) (by decide)

/-- Pointwise value of a counter map after reset-then-increment of one
key: that key reads 1, every other key is unchanged. -/
theorem incrementRequestCount_reset (counts : ReqCounts) (key x : String) :
    incrementRequestCount (resetRequestCount counts key) key x =
      if x = key then 1 else counts x := by
  unfold incrementRequestCount resetRequestCount
  by_cases h : x = key <;> simp [h]

/-- Pointwise value of a counter map after an increment. -/
theorem incrementRequestCount_apply (counts : ReqCounts) (key x : String) :
    incrementRequestCount counts key x = if x = key then counts key + 1 else counts x := rfl

/-- One completed request, written as a single conditional on whether the
counter of the served credential has reached N at selection time. -/
theorem rcCompletedCall_eq (N : ℕ) (keys : List String) (s : RCState) :
    rcCompletedCall N keys s =
      if N ≤ s.counts (keys.getD (s.currentIndex % keys.length) "") then
        { currentIndex := (s.currentIndex % keys.length + 1) % keys.length,
          counts := incrementRequestCount
            (resetRequestCount s.counts (keys.getD (s.currentIndex % keys.length) ""))
            (keys.getD (s.currentIndex % keys.length) ""),
          advances := s.advances + 1 }
      else
        { currentIndex := s.currentIndex % keys.length,
          counts := incrementRequestCount s.counts (keys.getD (s.currentIndex % keys.length) ""),
          advances := s.advances } := by
  unfold rcCompletedCall rcSelectStep
  by_cases h : N ≤ s.counts (keys.getD (s.currentIndex % keys.length) "") <;>
    [rw [if_pos h, if_pos h]; rw [if_neg h, if_neg h]]

/-- Invariant of the request-count cadence over the first full cycle of
the pool: after n completed requests (n at most k·(N+1)), q = n / (N+1)
advances have fired, the cursor sits at q mod k, and the counters read 1
on every already-left credential (the reset is followed by the completing
increment), n mod (N+1) on the current one, 0 on the rest. -/
theorem rcRun_invariant (N : ℕ) (keys : List String) (hN : 1 ≤ N) (hk : keys ≠ [])
    (hnd : keys.Nodup) :
    ∀ n, n ≤ keys.length * (N + 1) →
      (rcRun N keys n).currentIndex = (n / (N + 1)) % keys.length ∧
      (rcRun N keys n).advances = n / (N + 1) ∧
      ∀ i (hi : i < keys.length),
        (rcRun N keys n).counts (keys.get ⟨i, hi⟩) =
          (if i < n / (N + 1) then 1 else if i = n / (N + 1) then n % (N + 1) else 0) := by
  intro n
  induction n with
  | zero =>
    intro _
    refine ⟨by simp [rcRun, rcInitState], by simp [rcRun, rcInitState], ?_⟩
    intro i hi
    simp only [rcRun, Function.iterate_zero, id_eq, rcInitState, Nat.zero_div, Nat.zero_mod]
    split
    · omega
    · split <;> rfl
  | succ n ihn =>
    intro hn1
    have hn : n ≤ keys.length * (N + 1) := by omega
    obtain ⟨hcur, hadv, hcounts⟩ := ihn hn
    have hk0 : 0 < keys.length := List.length_pos.2 hk
    have hNpos : 0 < N + 1 := Nat.succ_pos N
    have hrlt : n % (N + 1) < N + 1 := Nat.mod_lt _ hNpos
    have hqk : n / (N + 1) < keys.length := by
      rw [Nat.div_lt_iff_lt_mul hNpos]
      omega
    have hstep : rcRun N keys (n + 1) = rcCompletedCall N keys (rcRun N keys n) := by
      rw [rcRun, rcRun, Function.iterate_succ_apply']
    have hidx : (rcRun N keys n).currentIndex % keys.length = n / (N + 1) := by
      rw [hcur, Nat.mod_mod_of_dvd _ dvd_rfl, Nat.mod_eq_of_lt hqk]
    have hkeyD : keys.getD (n / (N + 1)) "" = keys.get ⟨n / (N + 1), hqk⟩ := by
      rw [List.getD_eq_get?, List.get?_eq_get hqk]
      rfl
    have hcntq : (rcRun N keys n).counts (keys.get ⟨n / (N + 1), hqk⟩) = n % (N + 1) := by
      rw [hcounts (n / (N + 1)) hqk]
      simp
    rw [hstep, rcCompletedCall_eq, hidx, hkeyD, hcntq]
    by_cases hcase : N ≤ n % (N + 1)
    · -- advance step: the counter has reached N
      have hmul : n + 1 = (N + 1) * (n / (N + 1) + 1) := by
        have hexp : (N + 1) * (n / (N + 1) + 1) = (N + 1) * (n / (N + 1)) + (N + 1) := by
          rw [Nat.mul_add, Nat.mul_one]
        have hdm : (N + 1) * (n / (N + 1)) + n % (N + 1) = n := Nat.div_add_mod n (N + 1)
        omega
      have hsdiv : (n + 1) / (N + 1) = n / (N + 1) + 1 := by
        conv_lhs => rw [hmul]
        rw [Nat.mul_div_cancel_left _ hNpos]
      have hsmod : (n + 1) % (N + 1) = 0 := by
        conv_lhs => rw [hmul]
        rw [Nat.mul_mod_right]
      rw [if_pos hcase]
      refine ⟨by rw [hsdiv], by rw [hadv, hsdiv], ?_⟩
      intro i hi
      show incrementRequestCount _ _ _ = _
      rw [incrementRequestCount_reset, hsdiv, hsmod]
      by_cases hieq : i = n / (N + 1)
      · subst hieq
        rw [if_pos rfl, if_pos (Nat.lt_succ_self _)]
      · have hne : keys.get ⟨i, hi⟩ ≠ keys.get ⟨n / (N + 1), hqk⟩ := by
          intro hcontra
          have hfin := (List.Nodup.get_inj_iff hnd).1 hcontra
          simp only [Fin.mk.injEq] at hfin
          exact hieq hfin
        rw [if_neg hne, hcounts i hi]
        split_ifs <;> omega
    · -- ordinary step: the counter is below N
      have hmul : n + 1 = (N + 1) * (n / (N + 1)) + (n % (N + 1) + 1) := by
        have hdm : (N + 1) * (n / (N + 1)) + n % (N + 1) = n := Nat.div_add_mod n (N + 1)
        omega
      have hsdiv : (n + 1) / (N + 1) = n / (N + 1) := by
        conv_lhs => rw [hmul]
        rw [Nat.mul_add_div hNpos, Nat.div_eq_of_lt (by omega : n % (N + 1) + 1 < N + 1)]
        omega
      have hsmod : (n + 1) % (N + 1) = n % (N + 1) + 1 := by
        conv_lhs => rw [hmul]
        rw [Nat.mul_add_mod]
        exact Nat.mod_eq_of_lt (by omega)
      rw [if_neg hcase]
      refine ⟨by rw [hsdiv, Nat.mod_eq_of_lt hqk], by rw [hadv, hsdiv], ?_⟩
      intro i hi
      show incrementRequestCount _ _ _ = _
      rw [incrementRequestCount_apply, hsdiv, hsmod]
      by_cases hieq : i = n / (N + 1)
      · subst hieq
        rw [if_pos rfl, hcntq, if_neg (lt_irrefl _), if_pos rfl]
      · have hne : keys.get ⟨i, hi⟩ ≠ keys.get ⟨n / (N + 1), hqk⟩ := by
          intro hcontra
          have hfin := (List.Nodup.get_inj_iff hnd).1 hcontra
          simp only [Fin.mk.injEq] at hfin
          exact hieq hfin
        rw [if_neg hne, hcounts i hi]
        split_ifs <;> omega

/-- Claim C7, counterexample. One enabled credential, N = 2, the counter
incremented once per completed request: after n = 2 completed calls the
claim predicts ceil(2/2) = 1 cursor advance, but the code has performed 0,
because the advance check compares the counter BEFORE the completing
request is counted (call 1 sees 0, call 2 sees 1; the first advance only
fires on call 3). -/
theorem c7_cadence_counterexample :
    (rcRun 2 ["a"] 2).advances = 0 ∧ ((2 + 2 - 1) / 2 : ℕ) = 1 := by
  constructor
  · rfl
  · rfl

/-- Claim C7, amended. Under request_count(N) with no model filter and no
refresh errors, an advance fires on a call exactly when the serving
counter of the serving credential has already reached N at selection time (first
conjunct); the counter is reset on advance and then incremented for the
completing request. Consequently, over the first n completed calls of a
fresh pool of k distinct credentials with n at most k·(N+1), exactly
floor(n/(N+1)) cursor advances occur (second conjunct), not ceil(n/N). -/
theorem c7_request_count_cadence (N : ℕ) (keys : List String) :
    (∀ s : RCState,
      ((rcSelectStep N keys s).2.advances = s.advances + 1 ↔
        N ≤ s.counts (keys.getD (s.currentIndex % keys.length) ""))) ∧
    (∀ n, 1 ≤ N → keys ≠ [] → keys.Nodup → n ≤ keys.length * (N + 1) →
      (rcRun N keys n).advances = n / (N + 1)) := by
  constructor
  · intro s
    unfold rcSelectStep
    by_cases h : N ≤ s.counts (keys.getD (s.currentIndex % keys.length) "")
    · rw [if_pos h]
      exact ⟨fun _ => h, fun _ => rfl⟩
    · rw [if_neg h]
      exact ⟨fun heq => absurd (show s.advances = s.advances + 1 from heq) (by omega),
        fun hle => absurd hle h⟩
  · intro n hN hk hnd hn
    exact (rcRun_invariant N keys hN hk hnd n hn).2.1

/-- Witness for C7: two distinct credentials, N = 2, n = 3 completed
calls: exactly 3 / 3 = 1 advance has occurred. -/
theorem c7_request_count_cadence_witness :
    (1 ≤ 2) ∧ ((["a", "b"] : List String) ≠ []) ∧ (["a", "b"] : List String).Nodup ∧
    (3 ≤ (["a", "b"] : List String).length * (2 + 1)) ∧
    (rcRun 2 ["a", "b"] 3).advances = 3 / (2 + 1) := by
  refine ⟨by decide, by decide, by decide, by decide, ?_⟩
  exact (c7_request_count_cadence 2 ["a", "b"]).2 3 (by decide) (by decide) (by decide) (by decide)
